import Mathlib

/-!
Verification of the Inagiffy learning-map repository's reliability core:
the client-side error normalizer / retry policy / retrying base query
(frontend/src/utils/errorHandler.ts, frontend/src/store/api/learningMapApi.ts)
and the server-side Gemini response parser and error classifier
(backend geminiService, backend/src/utils/error.util.ts).

JavaScript values reaching the error normalizer are modelled by `JSValue`;
JSON documents by `Json`.  Machine numbers are modelled by `Int` (statuses
and retry counters stay far from any overflow).  Code that can throw is
modelled in `Except`.
-/

namespace Inagiffy

/-! ## String utilities (models of the JS string operations used by the code)

`isWsChar` models the ASCII part of JavaScript whitespace (`\s`, `trim`);
all texts handled by the claims stay in this alphabet. -/

def isWsChar (c : Char) : Bool :=
  c == ' ' || c == '\t' || c == '\n' || c == '\r' || c == '\x0b' || c == '\x0c'

def trimChars (l : List Char) : List Char :=
  ((l.dropWhile isWsChar).reverse.dropWhile isWsChar).reverse

/-- Model of `String.prototype.trim`. -/
def trimStr (s : String) : String := ⟨trimChars s.data⟩

/-- Model of `String.prototype.toLowerCase` (ASCII range). -/
def lowerStr (s : String) : String := ⟨s.data.map Char.toLower⟩

def listContainsSub (needle : List Char) : List Char → Bool
  | [] => needle.isEmpty
  | c :: tl => needle.isPrefixOf (c :: tl) || listContainsSub needle tl

/-- Model of `String.prototype.includes`. -/
def strContains (s sub : String) : Bool := listContainsSub sub.data s.data

/-- Case-insensitive "starts with", modelling an `/^pre/i` regex test. -/
def startsWithCI (pre : List Char) (l : List Char) : Bool :=
  (l.take pre.length).map Char.toLower == pre.map Char.toLower

/-! ## errorHandler.ts : data model -/

inductive ErrorType where
  | NETWORK
  | API
  | VALIDATION
  | UNKNOWN
deriving Repr, DecidableEq

/-- A JavaScript runtime value as seen by `normalizeError` (TS type `unknown`).
`errObj m` is an `Error` instance whose `message` is the string `m`. -/
inductive JSValue where
  | undefined
  | jsNull
  | jsBool (b : Bool)
  | num (n : Int)
  | str (s : String)
  | arr (xs : List JSValue)
  | obj (fields : List (String × JSValue))
  | errObj (msg : String)

def jLookupV : List (String × JSValue) → String → Option JSValue
  | [], _ => none
  | (k2, v) :: tl, k => if k2 == k then some v else jLookupV tl k

/-- Property read `v[k]`; a missing property is `undefined`. -/
def getField : JSValue → String → JSValue
  | .obj fs, k => match jLookupV fs k with
    | some v => v
    | none => .undefined
  | .errObj m, k => if k == "message" then .str m else .undefined
  | _, _ => .undefined

/-- `typeof v === "object" && v !== null` (arrays and `Error`s included). -/
def isObjectLike : JSValue → Bool
  | .obj _ => true
  | .arr _ => true
  | .errObj _ => true
  | _ => false

/-- JavaScript truthiness. -/
def jsTruthy : JSValue → Bool
  | .undefined => false
  | .jsNull => false
  | .jsBool b => b
  | .num n => n != 0
  | .str s => s != ""
  | .arr _ => true
  | .obj _ => true
  | .errObj _ => true

/-- `Number(s)` for a string, restricted to the integer numerals that occur
as HTTP statuses (decimal, optional sign, surrounding whitespace; the empty
string coerces to 0).  `none` is `NaN`. -/
def numberOfString (s : String) : Option Int :=
  let l := trimChars s.data
  match l with
  | [] => some 0
  | c :: tl =>
    let (neg, digits) :=
      if c == '-' then (true, tl) else if c == '+' then (false, tl) else (false, l)
    if digits.isEmpty || !digits.all Char.isDigit then none
    else
      let n : Int := digits.foldl (fun a d => a * 10 + (Int.ofNat (d.toNat - 48))) 0
      some (if neg then -n else n)

/-- Numeric coercion applied by JS `>=` / `<` when one side is a number.
`none` stands for `NaN` (every comparison with it is false). -/
def jsNumValue : JSValue → Option Int
  | .num n => some n
  | .str s => numberOfString s
  | .jsBool b => some (if b then 1 else 0)
  | .jsNull => some 0
  | _ => none

/-- Strict equality `v === n` against a number literal. -/
def jsEqNum (v : JSValue) (n : Int) : Bool :=
  match v with
  | .num m => m == n
  | _ => false

/-! ## errorHandler.ts : isNetworkError / isApiError -/

def arrIncludesStr (xs : List JSValue) (s : String) : Bool :=
  xs.any (fun x => match x with
    | .str t => t == s
    | _ => false)

/-- Embedding of `isNetworkError` (errorHandler.ts:26).  The chain
`err.message?.includes("Network") || ...` throws a `TypeError` when
`message` is present but is neither nullish, a string, nor an array
(e.g. a number has no `includes` method); `Except.error` models that throw. -/
def isNetworkError (v : JSValue) : Except Unit Bool :=
  if isObjectLike v then
    let codeHit :=
      match getField v "code" with
      | .str s => s == "NETWORK_ERROR" || s == "ECONNABORTED"
      | _ => false
    match getField v "message" with
    | .undefined => .ok codeHit
    | .jsNull => .ok codeHit
    | .str s => .ok (strContains s "Network" || strContains s "network" ||
        strContains s "fetch failed" || strContains s "Failed to fetch" || codeHit)
    | .arr xs => .ok (arrIncludesStr xs "Network" || arrIncludesStr xs "network" ||
        arrIncludesStr xs "fetch failed" || arrIncludesStr xs "Failed to fetch" || codeHit)
    | _ => .error ()
  else .ok false

/-- The shapes of the `message` field on which the `?.includes` chain of
`isNetworkError` evaluates without throwing: absent, nullish, a string, or
an array (which has an `includes` method). -/
def messageFieldNonThrowing (v : JSValue) : Bool :=
  match getField v "message" with
  | .undefined => true
  | .jsNull => true
  | .str _ => true
  | .arr _ => true
  | _ => false

def statusInApiRange (x : JSValue) : Bool :=
  match jsNumValue x with
  | some n => decide (400 ≤ n) && decide (n < 600)
  | none => false

/-- Embedding of `isApiError` (errorHandler.ts:44). -/
def isApiError (v : JSValue) : Bool :=
  isObjectLike v &&
    (statusInApiRange (getField v "status") || statusInApiRange (getField v "statusCode"))

/-! ## errorHandler.ts : cleanErrorMessage / extractErrorMessage -/

def errorPrefixes : List String :=
  ["TypeError:", "Error:", "ReferenceError:", "SyntaxError:",
   "RangeError:", "URIError:", "EvalError:"]

/-- One step `cleaned.replace(/^Pre:\s*/i, "")`. -/
def stripOnePre (l : List Char) (pre : List Char) : List Char :=
  if startsWithCI pre l then (l.drop pre.length).dropWhile isWsChar else l

/-- Embedding of `cleanErrorMessage` (errorHandler.ts:62): the seven
prefix-stripping replaces applied in order, then `trim`. -/
def cleanErrorMessage (message : String) : String :=
  ⟨trimChars (errorPrefixes.foldl (fun acc p => stripOnePre acc p.data) message.data)⟩

/-- Does the message still begin (case-insensitively) with one of the seven
exception-type prefixes? -/
def hasErrorTypePre (s : String) : Bool :=
  errorPrefixes.any (fun p => startsWithCI p.data s.data)

def genericErrorMessage : String := "An unexpected error occurred"

/-- A string-typed, non-empty field, as tested by
`typeof x === "string" && x`. -/
def strFieldNE (v : JSValue) (k : String) : Option String :=
  match getField v k with
  | .str s => if s == "" then none else some s
  | _ => none

/-- The raw (pre-cleaning) message location chosen by `extractErrorMessage`
(errorHandler.ts:85); `none` means no non-empty string was found. -/
def extractRawMessage : JSValue → Option String
  | .errObj m => if m == "" then none else some m
  | .str s => if s == "" then none else some s
  | .obj fs =>
    let v := JSValue.obj fs
    let d := getField v "data"
    let fromData :=
      if isObjectLike d then
        match strFieldNE d "message" with
        | some m => some m
        | none => strFieldNE d "error"
      else none
    match fromData with
    | some m => some m
    | none =>
      match strFieldNE v "message" with
      | some m => some m
      | none => strFieldNE v "error"
  | .arr _ => none
  | _ => none

/-- Embedding of `extractErrorMessage` (errorHandler.ts:85). -/
def extractErrorMessage (v : JSValue) : String :=
  match extractRawMessage v with
  | none => genericErrorMessage
  | some m => cleanErrorMessage m

/-! ## errorHandler.ts : normalizeError / shouldRetryError -/

structure AppError where
  type : ErrorType
  message : String
  code : Option JSValue
  originalError : Option JSValue

def networkErrorMessage : String :=
  "Network error. Please check your internet connection and try again."

/-- Embedding of `normalizeError` (errorHandler.ts:128).  `Except.error ()`
models the `TypeError` escaping from `isNetworkError`. -/
def normalizeError (v : JSValue) : Except Unit AppError :=
  let message := extractErrorMessage v
  match isNetworkError v with
  | .error e => .error e
  | .ok inet =>
    let lmsg := lowerStr message
    let isNetwork := inet || strContains lmsg "failed to fetch" ||
      strContains lmsg "network error" || strContains lmsg "fetch failed"
    if isNetwork then
      .ok { type := .NETWORK, message := networkErrorMessage,
            code := none, originalError := some v }
    else if isApiError v then
      let s0 := getField v "status"
      let status := if jsTruthy s0 then s0 else getField v "statusCode"
      let errorMessage :=
        if message == genericErrorMessage || message == "" then
          if jsEqNum status 400 then
            "Invalid request. Please check your input and try again."
          else if jsEqNum status 401 then
            "Unauthorized. Please check your credentials."
          else if jsEqNum status 403 then
            "Access forbidden. You don\x27t have permission."
          else if jsEqNum status 404 then
            "Resource not found."
          else if jsEqNum status 429 then
            "Too many requests. Please try again later."
          else if (match jsNumValue status with
            | some n => decide (500 ≤ n)
            | none => false) then
            "Server error. Please try again later."
          else message
        else message
      let codeVal :=
        match status with
        | .undefined => JSValue.num 500
        | .jsNull => JSValue.num 500
        | s => s
      .ok { type := .API, message := errorMessage,
            code := some codeVal, originalError := some v }
    else
      .ok { type := .UNKNOWN,
            message := if message == "" then genericErrorMessage else message,
            code := none, originalError := some v }

/-- `parseInt(String(code))` for the string codes reaching `shouldRetryError`
(decimal numerals; `none` is `NaN`). -/
def parseIntJS (s : String) : Option Int :=
  let l := s.data.dropWhile isWsChar
  match l with
  | [] => none
  | c :: tl =>
    let (neg, rest) :=
      if c == '-' then (true, tl) else if c == '+' then (false, tl) else (false, l)
    let digits := rest.takeWhile Char.isDigit
    if digits.isEmpty then none
    else
      let n : Int := digits.foldl (fun a d => a * 10 + (Int.ofNat (d.toNat - 48))) 0
      some (if neg then -n else n)

def statusCodeOfCode : JSValue → Option Int
  | .num n => some n
  | .str s => parseIntJS s
  | _ => none

/-- Embedding of `shouldRetryError` (errorHandler.ts:214). -/
def shouldRetryError (e : AppError) (retryCount : Nat) (maxRetries : Nat) : Bool :=
  if retryCount ≥ maxRetries then false
  else
    match e.type with
    | .NETWORK => true
    | .API =>
      match e.code with
      | some c =>
        if jsTruthy c then
          match statusCodeOfCode c with
          | some n => decide (500 ≤ n) && decide (n < 600)
          | none => false
        else false
      | none => false
    | _ => false

/-! ## learningMapApi.ts : retry configuration and retrying base query

Two deployed configurations of the same slice exist in the repository:
the generic exponential-backoff profile (`learningMapApi.ts`) and the
cold-start-aware profile for a sleeping backend (the variant source file
with `MAX_RETRIES = 10`).  Each lives in its own namespace below. -/

namespace learningMapApi

def MAX_RETRIES : Nat := 3
def RETRY_DELAY : Nat := 1000

/-- Embedding of `calculateRetryDelay` (learningMapApi.ts:36):
`RETRY_DELAY * Math.pow(2, attempt)`. -/
def calculateRetryDelay (attempt : Nat) : Nat :=
  RETRY_DELAY * 2 ^ attempt

end learningMapApi

namespace learningMapApiColdStart

def MAX_RETRIES : Nat := 10
def INITIAL_RETRY_DELAY : Nat := 5000
def RETRY_DELAY : Nat := 5000

/-- Embedding of the cold-start `calculateRetryDelay` (variant slice, lines
37-42): 5000ms for the first retry and every later one. -/
def calculateRetryDelay (attempt : Nat) : Nat :=
  if attempt == 0 then INITIAL_RETRY_DELAY else RETRY_DELAY

end learningMapApiColdStart

/-- Outcome of one `baseQuery` invocation:
`{ data }` on success or `{ error }` on failure. -/
inductive BQResult where
  | ok (value : JSValue)
  | err (error : JSValue)

/-- What `baseQueryWithRetry` resolves to (when it does not throw). -/
inductive QueryReturn where
  | success (value : JSValue)
  | failure (error : JSValue)

def setAssocV : List (String × JSValue) → String → JSValue → List (String × JSValue)
  | [], k, v => [(k, v)]
  | (k2, w) :: tl, k, v =>
    if k2 == k then (k2, v) :: tl else (k2, w) :: setAssocV tl k v

/-- The spread-with-override `{ ...e, k: x }` for the object errors produced
by `fetchBaseQuery` (non-objects do not occur there). -/
def setField (e : JSValue) (k : String) (x : JSValue) : JSValue :=
  match e with
  | .obj fs => .obj (setAssocV fs k x)
  | _ => .obj [(k, x)]

namespace learningMapApi

/-- The code after the `while` loop (learningMapApi.ts:108-117): one more
`normalizeError` for logging, then `return { error: lastError! }`.  It is
unreachable at runtime but kept for fidelity. -/
def afterLoop : Option JSValue → Except Unit QueryReturn
  | some e =>
    match normalizeError e with
    | .error u => .error u
    | .ok _ => .ok (.failure e)
  | none => .ok (.failure .undefined)

/-- One-to-one embedding of the `while (retryCount <= MAX_RETRIES)` loop of
`baseQueryWithRetry` (learningMapApi.ts:58-106).  `results i` is the outcome
of `baseQuery` on the attempt with `retryCount = i`; the backoff sleep has no
effect on the returned value and is not recorded.  `fuel` dominates the loop
iteration count. -/
def retryLoop (results : Nat → BQResult) :
    Nat → Nat → Option JSValue → Except Unit QueryReturn
  | 0, _, lastError => afterLoop lastError
  | fuel + 1, retryCount, lastError =>
    if retryCount ≤ MAX_RETRIES then
      match results retryCount with
      | .ok payload => .ok (.success payload)
      | .err e =>
        match normalizeError e with
        | .error u => .error u
        | .ok ne =>
          let lastError2 := setField e "data" (.str ne.message)
          if !shouldRetryError ne retryCount MAX_RETRIES then
            .ok (.failure lastError2)
          else if retryCount ≥ MAX_RETRIES then
            .ok (.failure lastError2)
          else
            retryLoop results fuel (retryCount + 1) (some lastError2)
    else afterLoop lastError

/-- Embedding of `baseQueryWithRetry` (learningMapApi.ts:49-118). -/
def baseQueryWithRetry (results : Nat → BQResult) : Except Unit QueryReturn :=
  retryLoop results (MAX_RETRIES + 2) 0 none

end learningMapApi

/-! ## JSON documents and a model of `JSON.parse`

`Json` is the value space of parsed JSON.  `num` keeps the integer numerals
that occur in this application's documents (statuses, counts); fractional and
exponent literals, `\u` surrogate pairs and non-scalar code units are outside
the model and make the parser fail where `JSON.parse` would succeed on exotic
inputs none of the claims touch. -/

inductive Json where
  | null
  | bool (b : Bool)
  | num (n : Int)
  | str (s : String)
  | arr (xs : List Json)
  | obj (fields : List (String × Json))

def isJsonWs (c : Char) : Bool :=
  c == ' ' || c == '\t' || c == '\n' || c == '\r'

def skipJsonWs (cs : List Char) : List Char := cs.dropWhile isJsonWs

def hexVal (c : Char) : Option Nat :=
  if c.isDigit then some (c.toNat - 48)
  else if 'a' ≤ c && c ≤ 'f' then some (c.toNat - 87)
  else if 'A' ≤ c && c ≤ 'F' then some (c.toNat - 55)
  else none

/-- Body of a JSON string literal, after the opening quote; returns the
decoded characters and the input remaining after the closing quote. -/
def parseStringBody : List Char → Option (List Char × List Char)
  | [] => none
  | c :: rest =>
    if c == '"' then some ([], rest)
    else if c == '\\' then
      match rest with
      | [] => none
      | e :: rest2 =>
        if e == 'u' then
          match rest2 with
          | h1 :: h2 :: h3 :: h4 :: rest3 =>
            match hexVal h1, hexVal h2, hexVal h3, hexVal h4 with
            | some a, some b, some c2, some d =>
              let code := ((a * 16 + b) * 16 + c2) * 16 + d
              if code.isValidChar then
                match parseStringBody rest3 with
                | some (cs, rem) => some (Char.ofNat code :: cs, rem)
                | none => none
              else none
            | _, _, _, _ => none
          | _ => none
        else
          let dec : Option Char :=
            if e == '"' then some '"'
            else if e == '\\' then some '\\'
            else if e == '/' then some '/'
            else if e == 'b' then some '\x08'
            else if e == 'f' then some '\x0c'
            else if e == 'n' then some '\n'
            else if e == 'r' then some '\r'
            else if e == 't' then some '\t'
            else none
          match dec with
          | some ch =>
            match parseStringBody rest2 with
            | some (cs, rem) => some (ch :: cs, rem)
            | none => none
          | none => none
    else if c.toNat < 32 then none
    else
      match parseStringBody rest with
      | some (cs, rem) => some (c :: cs, rem)
      | none => none

/-- A JSON number (integer form): optional minus, digits, no leading zero. -/
def parseJsonNumber (cs : List Char) : Option (Json × List Char) :=
  let (neg, body) :=
    match cs with
    | '-' :: tl => (true, tl)
    | _ => (false, cs)
  let digits := body.takeWhile Char.isDigit
  let rest := body.dropWhile Char.isDigit
  if digits.isEmpty then none
  else if digits.length > 1 && digits.head? == some '0' then none
  else
    let n : Int := digits.foldl (fun a d => a * 10 + (Int.ofNat (d.toNat - 48))) 0
    some (.num (if neg then -n else n), rest)

mutual

/-- Recursive-descent JSON value parser (model of `JSON.parse`); `fuel`
bounds the nesting and is made large enough by `jsonParse`. -/
def parseJsonValue : Nat → List Char → Option (Json × List Char)
  | 0, _ => none
  | fuel + 1, cs =>
    match skipJsonWs cs with
    | [] => none
    | c :: rest =>
      if c == '{' then
        match skipJsonWs rest with
        | '}' :: rest2 => some (.obj [], rest2)
        | _ => match parseJsonMembers fuel rest with
          | some (fs, rest2) => some (.obj fs, rest2)
          | none => none
      else if c == '[' then
        match skipJsonWs rest with
        | ']' :: rest2 => some (.arr [], rest2)
        | _ => match parseJsonElems fuel rest with
          | some (xs, rest2) => some (.arr xs, rest2)
          | none => none
      else if c == '"' then
        match parseStringBody rest with
        | some (content, rest2) => some (.str ⟨content⟩, rest2)
        | none => none
      else if c == 't' then
        match rest with
        | 'r' :: 'u' :: 'e' :: rest2 => some (.bool true, rest2)
        | _ => none
      else if c == 'f' then
        match rest with
        | 'a' :: 'l' :: 's' :: 'e' :: rest2 => some (.bool false, rest2)
        | _ => none
      else if c == 'n' then
        match rest with
        | 'u' :: 'l' :: 'l' :: rest2 => some (.null, rest2)
        | _ => none
      else if c == '-' || c.isDigit then
        parseJsonNumber (c :: rest)
      else none

/-- Members of a JSON object, after the opening brace (non-empty case). -/
def parseJsonMembers : Nat → List Char → Option (List (String × Json) × List Char)
  | 0, _ => none
  | fuel + 1, cs =>
    match skipJsonWs cs with
    | '"' :: rest =>
      match parseStringBody rest with
      | some (key, rest2) =>
        match skipJsonWs rest2 with
        | ':' :: rest3 =>
          match parseJsonValue fuel rest3 with
          | some (v, rest4) =>
            match skipJsonWs rest4 with
            | ',' :: rest5 =>
              match parseJsonMembers fuel rest5 with
              | some (fs, rest6) => some ((⟨key⟩, v) :: fs, rest6)
              | none => none
            | '}' :: rest5 => some ([(⟨key⟩, v)], rest5)
            | _ => none
          | none => none
        | _ => none
      | none => none
    | _ => none

/-- Elements of a JSON array, after the opening bracket (non-empty case). -/
def parseJsonElems : Nat → List Char → Option (List Json × List Char)
  | 0, _ => none
  | fuel + 1, cs =>
    match parseJsonValue fuel cs with
    | some (v, rest) =>
      match skipJsonWs rest with
      | ',' :: rest2 =>
        match parseJsonElems fuel rest2 with
        | some (xs, rest3) => some (v :: xs, rest3)
        | none => none
      | ']' :: rest2 => some ([v], rest2)
      | _ => none
    | none => none

end

/-- Model of `JSON.parse`: parse one value, require only whitespace after it. -/
def jsonParse (s : String) : Option Json :=
  match parseJsonValue (s.data.length + 1) s.data with
  | some (j, rest) => if (skipJsonWs rest).isEmpty then some j else none
  | none => none

/-! ## geminiService : parseGeminiResponse -/

def jLookup : List (String × Json) → String → Option Json
  | [], _ => none
  | (k2, v) :: tl, k => if k2 == k then some v else jLookup tl k

/-- Pure property read on a parsed document (`none` = `undefined`). -/
def jGet : Json → String → Option Json
  | .obj fs, k => jLookup fs k
  | _, _ => none

/-- Property read as executed by the validator: reading a property of `null`
throws a `TypeError`, which the surrounding `try` turns into a parse error. -/
def jAccess : Json → String → Except String (Option Json)
  | .null, _ => .error "Cannot read properties of null"
  | .obj fs, k => .ok (jLookup fs k)
  | _, _ => .ok none

def setAssoc : List (String × Json) → String → Json → List (String × Json)
  | [], k, v => [(k, v)]
  | (k2, w) :: tl, k, v =>
    if k2 == k then (k2, v) :: tl else (k2, w) :: setAssoc tl k v

/-- In-place property assignment `o[k] = v` (the validator only assigns to
plain objects; other shapes are unreachable and left unchanged). -/
def jSet : Json → String → Json → Json
  | .obj fs, k, v => .obj (setAssoc fs k v)
  | j, _, _ => j

/-- JavaScript truthiness of a parsed JSON value. -/
def jTruthy : Json → Bool
  | .null => false
  | .bool b => b
  | .num n => n != 0
  | .str s => s != ""
  | .arr _ => true
  | .obj _ => true

def truthyOpt : Option Json → Bool
  | some x => jTruthy x
  | none => false

/-- Sequential `for...of` with a `throw` aborting the loop, as `Except`. -/
def mapExcept (f : α → Except ε β) : List α → Except ε (List β)
  | [] => .ok []
  | x :: tl =>
    match f x with
    | .error e => .error e
    | .ok y =>
      match mapExcept f tl with
      | .error e => .error e
      | .ok ys => .ok (y :: ys)

/-- Embedding of the per-subtopic validation (geminiService, loop body at
`for (const subtopic of branch.subtopics)`): require truthy `title` and
`description` (`!subtopic.title || !subtopic.description`); default
`resources` to `[]` unless it is already an array. -/
def validateSubtopic (st : Json) : Except String Json :=
  match jAccess st "title", jAccess st "description" with
  | .error m, _ => .error m
  | _, .error m => .error m
  | .ok title, .ok desc =>
    if !truthyOpt title || !truthyOpt desc then
      .error "Invalid subtopic structure: missing required fields"
    else
      match jAccess st "resources" with
      | .error m => .error m
      | .ok (some (.arr _)) => .ok st
      | .ok _ => .ok (jSet st "resources" (.arr []))

/-- Embedding of the per-branch validation: require truthy `title` and an
array `subtopics` (`!branch.title || !branch.subtopics ||
!Array.isArray(branch.subtopics)`), then validate each subtopic in place. -/
def validateBranch (branch : Json) : Except String Json :=
  match jAccess branch "title", jAccess branch "subtopics" with
  | .error m, _ => .error m
  | _, .error m => .error m
  | .ok title, .ok sts =>
    match truthyOpt title, sts with
    | true, some (.arr subs) =>
      match mapExcept validateSubtopic subs with
      | .error m => .error m
      | .ok subs2 => .ok (jSet branch "subtopics" (.arr subs2))
    | _, _ => .error "Invalid branch structure: missing required fields"

/-- Top-level shape validation of the parsed document
(`!parsed.branches || !Array.isArray(parsed.branches)`). -/
def validateParsed (parsed : Json) : Except String Json :=
  match jAccess parsed "branches" with
  | .error m => .error m
  | .ok (some (.arr branches)) =>
    match mapExcept validateBranch branches with
    | .error m => .error m
    | .ok branches2 => .ok (jSet parsed "branches" (.arr branches2))
  | .ok _ => .error "Invalid response structure: missing or invalid branches array"

/-- `t.replace(/\s*` ``` `$/, "")`: remove a trailing fence and the
whitespace immediately before it. -/
def stripTrailingFence (l : List Char) : List Char :=
  let r := l.reverse
  if ['`', '`', '`'].isPrefixOf r then ((r.drop 3).dropWhile isWsChar).reverse
  else l

/-- Embedding of the markdown-fence stripping in `parseGeminiResponse`:
`/^` ``` `json\s*/` when the trimmed text starts with a json-tagged fence,
else `/^` ``` `\s*/` when it starts with a bare fence, each followed by the
trailing-fence replace. -/
def stripCodeFence (s : String) : String :=
  let l := s.data
  if ['`', '`', '`', 'j', 's', 'o', 'n'].isPrefixOf l then
    ⟨stripTrailingFence ((l.drop 7).dropWhile isWsChar)⟩
  else if ['`', '`', '`'].isPrefixOf l then
    ⟨stripTrailingFence ((l.drop 3).dropWhile isWsChar)⟩
  else s

/-- Stands for the engine-specific `SyntaxError` detail of a failed
`JSON.parse`; no claim depends on its text. -/
def jsonSyntaxDetail : String := "Unexpected token"

/-- Embedding of `parseGeminiResponse` (geminiService).  The catch block
re-wraps every failure message under the fixed prefix. -/
def parseGeminiResponse (responseText : String) : Except String Json :=
  let cleaned := stripCodeFence (trimStr responseText)
  match jsonParse cleaned with
  | none => .error ("Failed to parse Gemini response: " ++ jsonSyntaxDetail)
  | some parsed =>
    match validateParsed parsed with
    | .ok j => .ok j
    | .error m => .error ("Failed to parse Gemini response: " ++ m)

/-! ## Backend error taxonomy (error-code.enum.ts, error.util.ts) and the
catch-block classifier of `generateLearningMap` (geminiService). -/

inductive ErrorCodeEnum where
  | VALIDATION_ERROR
  | INVALID_INPUT
  | TOO_MANY_REQUESTS
  | DATABASE_QUERY_ERROR
  | EXTERNAL_SERVICE_ERROR
  | EXTERNAL_SERVICE_TIMEOUT
  | INTERNAL_SERVER_ERROR
  | NETWORK_ERROR
deriving Repr, DecidableEq

/-- `ERROR_CODE_TO_STATUS` (error.util.ts:7). -/
def errorCodeToStatus : ErrorCodeEnum → Int
  | .VALIDATION_ERROR => 400
  | .INVALID_INPUT => 400
  | .TOO_MANY_REQUESTS => 429
  | .DATABASE_QUERY_ERROR => 500
  | .EXTERNAL_SERVICE_ERROR => 502
  | .EXTERNAL_SERVICE_TIMEOUT => 504
  | .INTERNAL_SERVER_ERROR => 500
  | .NETWORK_ERROR => 503

/-- `getDefaultErrorMessage` (error.util.ts:56). -/
def getDefaultErrorMessage : ErrorCodeEnum → String
  | .VALIDATION_ERROR => "Validation failed."
  | .INVALID_INPUT => "Invalid input provided."
  | .TOO_MANY_REQUESTS => "Too many requests. Please try again later."
  | .DATABASE_QUERY_ERROR => "Database query failed."
  | .EXTERNAL_SERVICE_ERROR => "External service error occurred."
  | .EXTERNAL_SERVICE_TIMEOUT => "External service timeout."
  | .INTERNAL_SERVER_ERROR => "Internal server error occurred."
  | .NETWORK_ERROR => "Network error occurred."

/-- The server-side `AppError` as far as the classifier observes it:
a message and the HTTP status chosen by `createError`. -/
structure SrvAppError where
  message : String
  statusCode : Int
deriving Repr, DecidableEq

/-- `createError` / `AppError.fromErrorCode` (error.util.ts:30):
`message || getDefaultErrorMessage(errorCode)`. -/
def createError (errorCode : ErrorCodeEnum) (message : Option String) : SrvAppError :=
  { message :=
      match message with
      | some m => if m == "" then getDefaultErrorMessage errorCode else m
      | none => getDefaultErrorMessage errorCode,
    statusCode := errorCodeToStatus errorCode }

/-- A value thrown inside `generateLearningMap`'s try block: a domain
`AppError`, a plain `Error`, or any other thrown value. -/
inductive Thrown where
  | appErr (e : SrvAppError)
  | plainErr (message : String)
  | other (v : JSValue)

/-- `String(error)` for the thrown values above (`Error` stringifies as
`"Error: <message>"`; non-Error values by their JS conversions, of which the
classifier only ever uses the result as an opaque message). -/
def thrownToString : Thrown → String
  | .appErr e => if e.message == "" then "Error" else "Error: " ++ e.message
  | .plainErr m => if m == "" then "Error" else "Error: " ++ m
  | .other v =>
    match v with
    | .str s => s
    | .num n => toString n
    | .jsBool b => if b then "true" else "false"
    | .jsNull => "null"
    | .undefined => "undefined"
    | _ => "[object Object]"

/-- The four string constants the catch block stores in its local
`errorCode` variable, as an enumeration. -/
inductive GeminiCatchCode where
  | API_KEY_ERROR
  | QUOTA_EXCEEDED
  | NETWORK_ERROR
  | TIMEOUT_ERROR
deriving Repr, DecidableEq

/-- The message of the caught value when it is an `Error` instance. -/
def thrownMessage : Thrown → Option String
  | .appErr e => some e.message
  | .plainErr m => some m
  | .other _ => none

/-- Embedding of the catch block of `generateLearningMap` (geminiService,
`catch (error: unknown)`): keyword classification of the message, then the
mapping to `AppError.fromErrorCode`, with pass-through of an unclassified
domain `AppError`.  The returned value is the error the function re-throws. -/
def classifyGeminiCatch (err : Thrown) : SrvAppError :=
  let errorCode : Option GeminiCatchCode :=
    match thrownMessage err with
    | some m =>
      if strContains m "API key" then some .API_KEY_ERROR
      else if strContains m "quota" then some .QUOTA_EXCEEDED
      else if strContains m "network" || strContains m "fetch" then some .NETWORK_ERROR
      else if strContains m "timeout" then some .TIMEOUT_ERROR
      else none
    | none => none
  match errorCode with
  | some .API_KEY_ERROR =>
    createError .EXTERNAL_SERVICE_ERROR (some "Google Gemini API key not configured or invalid")
  | some .QUOTA_EXCEEDED =>
    createError .TOO_MANY_REQUESTS (some "API quota exceeded. Please try again later")
  | some .NETWORK_ERROR =>
    createError .NETWORK_ERROR (some "Network error. Please check your connection")
  | some .TIMEOUT_ERROR =>
    createError .EXTERNAL_SERVICE_TIMEOUT (some "Request timed out. Please try again")
  | none =>
    match err with
    | .appErr e => e
    | e =>
      createError .EXTERNAL_SERVICE_ERROR
        (some (if thrownToString e == "" then
          "Unknown error occurred while generating learning map"
        else thrownToString e))

/-! ## Specification-side notions for the parser claims

`specResources`, `SpecSubMatch` and `SpecBranchMatch` follow the spec's
words ("title/description/subtopics preserved; missing `resources` becomes
`[]`") and are compared against the behaviour of `parseGeminiResponse`. -/

/-- Spec side: keep `resources` when it is an array, otherwise `[]`. -/
def specResources (st : Json) : Json :=
  match jGet st "resources" with
  | some (.arr r) => .arr r
  | _ => .arr []

/-- Spec side: an output subtopic preserves `title` and `description` and
carries the defaulted `resources`. -/
def SpecSubMatch (st out : Json) : Prop :=
  jGet out "title" = jGet st "title" ∧
  jGet out "description" = jGet st "description" ∧
  jGet out "resources" = some (specResources st)

/-- Spec side: an output branch preserves `title` and `description` and its
subtopics match pairwise. -/
def SpecBranchMatch (b out : Json) : Prop :=
  jGet out "title" = jGet b "title" ∧
  jGet out "description" = jGet b "description" ∧
  ∃ sts osts, jGet b "subtopics" = some (.arr sts) ∧
    jGet out "subtopics" = some (.arr osts) ∧
    List.Forall₂ SpecSubMatch sts osts

/-- A subtopic the validator accepts: truthy `title` and `description`. -/
def wellFormedSub (st : Json) : Bool :=
  truthyOpt (jGet st "title") && truthyOpt (jGet st "description")

def wellFormedBranch (b : Json) : Bool :=
  truthyOpt (jGet b "title") &&
    (match jGet b "subtopics" with
     | some (.arr sts) => sts.all wellFormedSub
     | _ => false)

/-- A document `parseGeminiResponse` accepts after `JSON.parse`. -/
def wellFormedDoc (j : Json) : Bool :=
  match jGet j "branches" with
  | some (.arr bs) => bs.all wellFormedBranch
  | _ => false

/-- A branch value failing the branch-level checks (a `null` branch makes the
property read itself throw). -/
def badBranchShape (b : Json) : Bool :=
  match b with
  | .null => true
  | _ =>
    !truthyOpt (jGet b "title") ||
      !(match jGet b "subtopics" with
        | some (.arr _) => true
        | _ => false)

/-- A subtopic value failing the subtopic-level checks. -/
def badSub (st : Json) : Bool :=
  match st with
  | .null => true
  | _ => !truthyOpt (jGet st "title") || !truthyOpt (jGet st "description")

def branchHasBadSub (b : Json) : Bool :=
  match jGet b "subtopics" with
  | some (.arr sts) => sts.any badSub
  | _ => false

/-- The retryable kinds of claim C3: Network, or API with a 5xx numeric
status code. -/
def RetryableKind (a : AppError) : Prop :=
  a.type = .NETWORK ∨
    ∃ n : Int, a.type = .API ∧ a.code = some (.num n) ∧ 500 ≤ n ∧ n < 600

/-! ## Basic lemmas about the embedded operations -/

theorem jLookup_setAssoc_same (fs : List (String × Json)) (k : String) (v : Json) :
    jLookup (setAssoc fs k v) k = some v := by
  induction fs with
  | nil => simp [setAssoc, jLookup]
  | cons hd tl ih =>
    obtain ⟨k2, w⟩ := hd
    by_cases h : k2 = k
    · simp [setAssoc, jLookup, h]
    · simp only [setAssoc, jLookup]
      rw [if_neg (by simpa using h)]
      simp only [jLookup]
      rw [if_neg (by simpa using h)]
      exact ih

theorem jLookup_setAssoc_other (fs : List (String × Json)) (k k2 : String) (v : Json)
    (h : k2 ≠ k) : jLookup (setAssoc fs k v) k2 = jLookup fs k2 := by
  induction fs with
  | nil =>
    simp only [setAssoc, jLookup]
    rw [if_neg (by simpa using Ne.symm h)]
  | cons hd tl ih =>
    obtain ⟨k3, w⟩ := hd
    by_cases h3 : k3 = k
    · subst h3
      simp only [setAssoc]
      rw [if_pos (by simp)]
      simp only [jLookup]
      rw [if_neg (by simpa using Ne.symm h), if_neg (by simpa using Ne.symm h)]
    · simp only [setAssoc]
      rw [if_neg (by simpa using h3)]
      simp only [jLookup]
      by_cases h4 : k3 = k2
      · simp [h4]
      · rw [if_neg (by simpa using h4), if_neg (by simpa using h4)]
        exact ih

theorem jGet_jSet_same (fs : List (String × Json)) (k : String) (v : Json) :
    jGet (jSet (.obj fs) k v) k = some v := by
  simp [jSet, jGet, jLookup_setAssoc_same]

theorem jGet_jSet_other (fs : List (String × Json)) (k k2 : String) (v : Json)
    (h : k2 ≠ k) : jGet (jSet (.obj fs) k v) k2 = jGet (.obj fs) k2 := by
  simp [jSet, jGet, jLookup_setAssoc_other _ _ _ _ h]

/-- Only plain objects answer property reads with `some`. -/
theorem jGet_some_obj {j : Json} {k : String} {v : Json} (h : jGet j k = some v) :
    ∃ fs, j = .obj fs := by
  cases j <;> simp [jGet] at h ⊢

theorem truthyOpt_obj {j : Json} {k : String} (h : truthyOpt (jGet j k) = true) :
    ∃ fs, j = .obj fs := by
  match h2 : jGet j k with
  | some v => exact jGet_some_obj h2
  | none => rw [h2] at h; simp [truthyOpt] at h

theorem jAccess_obj (fs : List (String × Json)) (k : String) :
    jAccess (.obj fs) k = .ok (jLookup fs k) := rfl

theorem jGet_obj (fs : List (String × Json)) (k : String) :
    jGet (.obj fs) k = jLookup fs k := rfl

theorem mapExcept_ok_mem {f : α → Except ε β} {l : List α} {l2 : List β}
    (h : mapExcept f l = .ok l2) : ∀ y ∈ l2, ∃ x ∈ l, f x = .ok y := by
  induction l generalizing l2 with
  | nil =>
    simp [mapExcept] at h
    subst h
    simp
  | cons hd tl ih =>
    simp only [mapExcept] at h
    match h2 : f hd with
    | .error e => rw [h2] at h; exact absurd h (by simp)
    | .ok y0 =>
      rw [h2] at h
      match h3 : mapExcept f tl with
      | .error e => rw [h3] at h; exact absurd h (by simp)
      | .ok ys =>
        rw [h3] at h
        cases h
        intro y hy
        rcases List.mem_cons.mp hy with h4 | h4
        · exact ⟨hd, by simp, h4 ▸ h2⟩
        · obtain ⟨x, hx, hfx⟩ := ih h3 y h4
          exact ⟨x, by simp [hx], hfx⟩

theorem mapExcept_forall2 {f : α → Except ε β} {P : α → β → Prop} {l : List α}
    (h : ∀ x ∈ l, ∃ y, f x = .ok y ∧ P x y) :
    ∃ l2, mapExcept f l = .ok l2 ∧ List.Forall₂ P l l2 := by
  induction l with
  | nil => exact ⟨[], rfl, List.Forall₂.nil⟩
  | cons hd tl ih =>
    obtain ⟨y, hy, hp⟩ := h hd (by simp)
    obtain ⟨l2, hl2, hf⟩ := ih (fun x hx => h x (by simp [hx]))
    exact ⟨y :: l2, by simp [mapExcept, hy, hl2], List.Forall₂.cons hp hf⟩

theorem mapExcept_error_of_mem {f : α → Except ε β} {l : List α} {x : α} {m : ε}
    (hx : x ∈ l) (hfx : f x = .error m) : ∃ m2, mapExcept f l = .error m2 := by
  induction l with
  | nil => simp at hx
  | cons hd tl ih =>
    simp only [mapExcept]
    match h2 : f hd with
    | .error e => exact ⟨e, rfl⟩
    | .ok y =>
      rcases List.mem_cons.mp hx with h3 | h3
      · subst h3; rw [hfx] at h2; cases h2
      · obtain ⟨m2, hm2⟩ := ih h3
        exact ⟨m2, by rw [hm2]⟩

/-! ## Lemmas about the subtopic/branch validators -/

theorem validateSubtopic_ok_of_wf {st : Json} (h : wellFormedSub st = true) :
    ∃ out, validateSubtopic st = .ok out ∧ SpecSubMatch st out ∧
      jGet out "subtopics" = jGet st "subtopics" := by
  rw [wellFormedSub, Bool.and_eq_true] at h
  obtain ⟨ht, hd⟩ := h
  obtain ⟨fs, rfl⟩ := truthyOpt_obj ht
  rw [jGet_obj] at ht hd
  simp only [validateSubtopic, jAccess_obj, ht, hd]
  match h3 : jLookup fs "resources" with
  | some (.arr r) =>
    refine ⟨.obj fs, by simp, ⟨rfl, rfl, ?_⟩, rfl⟩
    rw [specResources, jGet_obj, h3]
  | some .null | some (.bool _) | some (.num _) | some (.str _) | some (.obj _) | none =>
    refine ⟨jSet (.obj fs) "resources" (.arr []), by simp, ⟨?_, ?_, ?_⟩, ?_⟩
    · rw [jGet_jSet_other _ _ _ _ (by decide)]
    · rw [jGet_jSet_other _ _ _ _ (by decide)]
    · rw [jGet_jSet_same, specResources, jGet_obj, h3]
    · rw [jGet_jSet_other _ _ _ _ (by decide)]

theorem validateSubtopic_ok_inv {st out : Json} (h : validateSubtopic st = .ok out) :
    truthyOpt (jGet out "title") = true ∧ truthyOpt (jGet out "description") = true ∧
      (∃ r, jGet out "resources" = some (.arr r)) ∧
      jGet out "subtopics" = jGet st "subtopics" ∧ wellFormedSub st = true := by
  match st with
  | .null => simp [validateSubtopic, jAccess] at h
  | .bool _ | .num _ | .str _ | .arr _ =>
    simp [validateSubtopic, jAccess, truthyOpt] at h
  | .obj fs =>
    simp only [validateSubtopic, jAccess_obj] at h
    match ht : truthyOpt (jLookup fs "title"), hd : truthyOpt (jLookup fs "description") with
    | false, _ => rw [ht] at h; simp at h
    | true, false => rw [ht, hd] at h; simp at h
    | true, true =>
      rw [ht, hd] at h
      simp only [Bool.not_true, Bool.or_self, Bool.false_eq_true, if_false] at h
      have hwf : wellFormedSub (.obj fs) = true := by
        rw [wellFormedSub, jGet_obj, jGet_obj, ht, hd]; rfl
      match h3 : jLookup fs "resources" with
      | some (.arr r) =>
        rw [h3] at h
        cases h
        exact ⟨by rw [jGet_obj]; exact ht, by rw [jGet_obj]; exact hd,
          ⟨r, by rw [jGet_obj]; exact h3⟩, rfl, hwf⟩
      | some .null | some (.bool _) | some (.num _) | some (.str _) | some (.obj _) | none =>
        rw [h3] at h
        cases h
        refine ⟨?_, ?_, ⟨[], jGet_jSet_same _ _ _⟩, ?_, hwf⟩ <;>
          rw [jGet_jSet_other _ _ _ _ (by decide), jGet_obj]
        · exact ht
        · exact hd

theorem validateSubtopic_err_of_bad {st : Json} (h : badSub st = true) :
    ∃ m, validateSubtopic st = .error m := by
  match st with
  | .null => exact ⟨"Cannot read properties of null", rfl⟩
  | .bool _ | .num _ | .str _ | .arr _ =>
    exact ⟨"Invalid subtopic structure: missing required fields",
      by simp [validateSubtopic, jAccess, truthyOpt]⟩
  | .obj fs =>
    refine ⟨"Invalid subtopic structure: missing required fields", ?_⟩
    simp only [badSub, jGet_obj] at h
    simp only [validateSubtopic, jAccess_obj]
    rw [if_pos h]

theorem validateBranch_ok_of_wf {b : Json} (h : wellFormedBranch b = true) :
    ∃ out, validateBranch b = .ok out ∧ SpecBranchMatch b out := by
  rw [wellFormedBranch, Bool.and_eq_true] at h
  obtain ⟨ht, hsub⟩ := h
  obtain ⟨fs, rfl⟩ := truthyOpt_obj ht
  rw [jGet_obj] at ht
  match h2 : jLookup fs "subtopics" with
  | some (.arr sts) =>
    rw [jGet_obj, h2] at hsub
    have hall : ∀ st ∈ sts, ∃ out, validateSubtopic st = .ok out ∧
        (SpecSubMatch st out ∧ jGet out "subtopics" = jGet st "subtopics") := by
      intro st hst
      have := validateSubtopic_ok_of_wf (List.all_eq_true.mp hsub st hst)
      tauto
    obtain ⟨sts2, hmap, hforall⟩ := mapExcept_forall2 hall
    refine ⟨jSet (.obj fs) "subtopics" (.arr sts2), ?_, ?_, ?_, sts, sts2, ?_, ?_, ?_⟩
    · simp only [validateBranch, jAccess_obj, ht, h2, hmap]
    · rw [jGet_jSet_other _ _ _ _ (by decide)]
    · rw [jGet_jSet_other _ _ _ _ (by decide)]
    · rw [jGet_obj]; exact h2
    · exact jGet_jSet_same _ _ _
    · exact hforall.imp (fun _ _ hp => hp.1)
  | some .null | some (.bool _) | some (.num _) | some (.str _) | some (.obj _) | none =>
    rw [jGet_obj, h2] at hsub
    cases hsub

theorem validateBranch_ok_inv {b out : Json} (h : validateBranch b = .ok out) :
    ∃ subs subs2, jGet b "subtopics" = some (.arr subs) ∧
      mapExcept validateSubtopic subs = .ok subs2 ∧
      jGet out "subtopics" = some (.arr subs2) := by
  match b with
  | .null => simp [validateBranch, jAccess] at h
  | .bool _ | .num _ | .str _ | .arr _ =>
    simp [validateBranch, jAccess, truthyOpt] at h
  | .obj fs =>
    simp only [validateBranch, jAccess_obj] at h
    match ht : truthyOpt (jLookup fs "title"), h2 : jLookup fs "subtopics" with
    | true, some (.arr subs) =>
      rw [ht, h2] at h
      simp only at h
      match h3 : mapExcept validateSubtopic subs with
      | .error m => rw [h3] at h; simp at h
      | .ok subs2 =>
        rw [h3] at h
        simp only at h
        cases h
        exact ⟨subs, subs2, by rw [jGet_obj]; exact h2, h3, jGet_jSet_same _ _ _⟩
    | true, some .null | true, some (.bool _) | true, some (.num _) | true, some (.str _)
    | true, some (.obj _) | true, none =>
      rw [ht, h2] at h; simp at h
    | false, _ => rw [ht] at h; simp at h

theorem validateBranch_err_of_bad {b : Json} (h : badBranchShape b = true) :
    ∃ m, validateBranch b = .error m := by
  match b with
  | .null => exact ⟨"Cannot read properties of null", rfl⟩
  | .bool _ | .num _ | .str _ | .arr _ =>
    exact ⟨"Invalid branch structure: missing required fields",
      by simp [validateBranch, jAccess, truthyOpt]⟩
  | .obj fs =>
    simp only [badBranchShape, jGet_obj, Bool.or_eq_true, Bool.not_eq_eq_eq_not,
      Bool.not_true] at h
    refine ⟨"Invalid branch structure: missing required fields", ?_⟩
    simp only [validateBranch, jAccess_obj]
    rcases h with h | h
    · rw [h]
    · match ht : truthyOpt (jLookup fs "title"), h2 : jLookup fs "subtopics" with
      | false, _ => rfl
      | true, some (.arr sts) => rw [h2] at h; cases h
      | true, some .null | true, some (.bool _) | true, some (.num _)
      | true, some (.str _) | true, some (.obj _) | true, none => rfl

theorem validateBranch_err_of_badSub {b : Json} (h : branchHasBadSub b = true) :
    ∃ m, validateBranch b = .error m := by
  rw [branchHasBadSub] at h
  match h2 : jGet b "subtopics" with
  | some (.arr sts) =>
    rw [h2] at h
    obtain ⟨fs, rfl⟩ := jGet_some_obj h2
    rw [jGet_obj] at h2
    obtain ⟨st, hst, hbad⟩ := List.any_eq_true.mp h
    obtain ⟨m, hm⟩ := validateSubtopic_err_of_bad hbad
    obtain ⟨m2, hm2⟩ := mapExcept_error_of_mem hst hm
    match ht : truthyOpt (jLookup fs "title") with
    | false =>
      refine ⟨"Invalid branch structure: missing required fields", ?_⟩
      simp only [validateBranch, jAccess_obj, h2, ht]
    | true =>
      refine ⟨m2, ?_⟩
      simp only [validateBranch, jAccess_obj, h2, ht, hm2]
  | some .null | some (.bool _) | some (.num _) | some (.str _) | some (.obj _) | none =>
    rw [h2] at h; cases h

theorem validateParsed_ok_of_wf {j : Json} (h : wellFormedDoc j = true) :
    ∃ out bs obs, jGet j "branches" = some (.arr bs) ∧ validateParsed j = .ok out ∧
      jGet out "branches" = some (.arr obs) ∧ List.Forall₂ SpecBranchMatch bs obs := by
  rw [wellFormedDoc] at h
  match h2 : jGet j "branches" with
  | some (.arr bs) =>
    rw [h2] at h
    obtain ⟨fs, rfl⟩ := jGet_some_obj h2
    rw [jGet_obj] at h2
    have hall : ∀ b ∈ bs, ∃ out, validateBranch b = .ok out ∧ SpecBranchMatch b out :=
      fun b hb => validateBranch_ok_of_wf (List.all_eq_true.mp h b hb)
    obtain ⟨obs, hmap, hforall⟩ := mapExcept_forall2 hall
    refine ⟨jSet (.obj fs) "branches" (.arr obs), bs, obs, ?_, ?_,
      jGet_jSet_same _ _ _, hforall⟩
    · rfl
    · simp only [validateParsed, jAccess_obj, h2, hmap]
  | some .null | some (.bool _) | some (.num _) | some (.str _) | some (.obj _) | none =>
    rw [h2] at h; cases h

theorem validateParsed_ok_inv {j out : Json} (h : validateParsed j = .ok out) :
    ∃ bs bs2, jGet j "branches" = some (.arr bs) ∧
      mapExcept validateBranch bs = .ok bs2 ∧
      jGet out "branches" = some (.arr bs2) := by
  match j with
  | .null => simp [validateParsed, jAccess] at h
  | .bool _ | .num _ | .str _ | .arr _ => simp [validateParsed, jAccess] at h
  | .obj fs =>
    simp only [validateParsed, jAccess_obj] at h
    match h2 : jLookup fs "branches" with
    | some (.arr bs) =>
      rw [h2] at h
      simp only at h
      match h3 : mapExcept validateBranch bs with
      | .error m => rw [h3] at h; simp at h
      | .ok bs2 =>
        rw [h3] at h
        simp only at h
        cases h
        exact ⟨bs, bs2, by rw [jGet_obj]; exact h2, h3, jGet_jSet_same _ _ _⟩
    | some .null | some (.bool _) | some (.num _) | some (.str _) | some (.obj _) | none =>
      rw [h2] at h; simp at h

theorem validateParsed_err_of_badBranch {j : Json} {bs : List Json}
    (h2 : jGet j "branches" = some (.arr bs))
    (h : ∃ b ∈ bs, badBranchShape b = true ∨ branchHasBadSub b = true) :
    ∃ m, validateParsed j = .error m := by
  obtain ⟨fs, rfl⟩ := jGet_some_obj h2
  rw [jGet_obj] at h2
  obtain ⟨b, hb, hbad⟩ := h
  have herr : ∃ m, validateBranch b = .error m := by
    rcases hbad with h3 | h3
    · exact validateBranch_err_of_bad h3
    · exact validateBranch_err_of_badSub h3
  obtain ⟨m, hm⟩ := herr
  obtain ⟨m2, hm2⟩ := mapExcept_error_of_mem hb hm
  refine ⟨m2, ?_⟩
  simp only [validateParsed, jAccess_obj, h2, hm2]

/-! ## Lemmas about `parseGeminiResponse` as a whole -/

theorem parseGemini_ok_of_wf {raw : String} {j : Json}
    (hp : jsonParse (stripCodeFence (trimStr raw)) = some j)
    (hwf : wellFormedDoc j = true) :
    ∃ out bs obs, jGet j "branches" = some (.arr bs) ∧
      parseGeminiResponse raw = .ok out ∧
      jGet out "branches" = some (.arr obs) ∧
      List.Forall₂ SpecBranchMatch bs obs := by
  obtain ⟨out, bs, obs, hbs, hval, hobs, hforall⟩ := validateParsed_ok_of_wf hwf
  refine ⟨out, bs, obs, hbs, ?_, hobs, hforall⟩
  simp only [parseGeminiResponse, hp, hval]

theorem parseGemini_err_of_badBranch {raw : String} {j : Json} {bs : List Json}
    (hp : jsonParse (stripCodeFence (trimStr raw)) = some j)
    (hbs : jGet j "branches" = some (.arr bs))
    (h : ∃ b ∈ bs, badBranchShape b = true ∨ branchHasBadSub b = true) :
    ∃ m, parseGeminiResponse raw = .error m := by
  obtain ⟨m, hm⟩ := validateParsed_err_of_badBranch hbs h
  refine ⟨"Failed to parse Gemini response: " ++ m, ?_⟩
  simp only [parseGeminiResponse, hp, hm]

theorem parseGemini_ok_inv {raw : String} {out : Json}
    (h : parseGeminiResponse raw = .ok out) :
    ∃ obs, jGet out "branches" = some (.arr obs) ∧
      ∀ b ∈ obs, ∃ sts, jGet b "subtopics" = some (.arr sts) ∧
        ∀ st ∈ sts, truthyOpt (jGet st "title") = true ∧
          truthyOpt (jGet st "description") = true ∧
          ∃ r, jGet st "resources" = some (.arr r) := by
  rw [parseGeminiResponse] at h
  match hp : jsonParse (stripCodeFence (trimStr raw)) with
  | none => rw [hp] at h; simp at h
  | some parsed =>
    rw [hp] at h
    simp only at h
    match hv : validateParsed parsed with
    | .error m => rw [hv] at h; simp at h
    | .ok out0 =>
      rw [hv] at h
      simp only at h
      cases h
      obtain ⟨bs, bs2, _, hmap, hget⟩ := validateParsed_ok_inv hv
      refine ⟨bs2, hget, ?_⟩
      intro b hb
      obtain ⟨borig, _, hbok⟩ := mapExcept_ok_mem hmap b hb
      obtain ⟨subs, subs2, _, hsmap, hsget⟩ := validateBranch_ok_inv hbok
      refine ⟨subs2, hsget, ?_⟩
      intro st hst
      obtain ⟨st0, _, hsok⟩ := mapExcept_ok_mem hsmap st hst
      obtain ⟨h1, h2, h3, _, _⟩ := validateSubtopic_ok_inv hsok
      exact ⟨h1, h2, h3⟩

/-- Nested subtopics are untouched: the validator changes nothing under the
`subtopics` key of a subtopic it accepts. -/
theorem validateSubtopic_nested_unchanged {st out : Json}
    (h : validateSubtopic st = .ok out) :
    jGet out "subtopics" = jGet st "subtopics" :=
  (validateSubtopic_ok_inv h).2.2.2.1

/-! ## Lemmas for the message-cleaning step -/

theorem trimChars_eq_rdrop (l : List Char) :
    trimChars l = List.rdropWhile isWsChar (List.dropWhile isWsChar l) := rfl

theorem dropWhile_trimChars (l : List Char) :
    List.dropWhile isWsChar (trimChars l) = trimChars l := by
  rw [trimChars_eq_rdrop]
  rcases List.rdropWhile_prefix isWsChar (List.dropWhile isWsChar l) with ⟨t, ht⟩
  match hB : List.rdropWhile isWsChar (List.dropWhile isWsChar l) with
  | [] => rfl
  | c :: t2 =>
    rw [hB] at ht
    by_cases hc : isWsChar c = true
    · exfalso
      have hA : List.dropWhile isWsChar l = c :: (t2 ++ t) := by rw [← ht]; rfl
      have h2 : List.dropWhile isWsChar (List.dropWhile isWsChar l) =
          List.dropWhile isWsChar l := List.dropWhile_idempotent _ _
      rw [hA, List.dropWhile_cons_of_pos hc] at h2
      have h3 := congrArg List.length h2
      have h4 := (List.dropWhile_suffix (l := t2 ++ t) isWsChar).length_le
      simp only [List.length_cons] at h3
      omega
    · exact List.dropWhile_cons_of_neg (by simpa using hc)

theorem trimChars_idem (l : List Char) : trimChars (trimChars l) = trimChars l := by
  conv_lhs => rw [trimChars_eq_rdrop, dropWhile_trimChars, trimChars_eq_rdrop]
  rw [List.rdropWhile_idempotent, ← trimChars_eq_rdrop]

theorem foldl_stripOnePre_id {l : List Char} {ps : List String}
    (h : ∀ p ∈ ps, startsWithCI p.data l = false) :
    ps.foldl (fun acc p => stripOnePre acc p.data) l = l := by
  induction ps with
  | nil => rfl
  | cons hd tl ih =>
    simp only [List.foldl_cons, stripOnePre]
    rw [if_neg (by simp [h hd (by simp)])]
    exact ih (fun p hp => h p (by simp [hp]))

/-! ## Lemmas for the retry policy and the retrying client -/

theorem shouldRetry_of_retryableKind {a : AppError} {i m : Nat}
    (h : RetryableKind a) (hi : i < m) : shouldRetryError a i m = true := by
  rw [shouldRetryError, if_neg (by omega)]
  rcases h with h | ⟨n, ht, hc, h5, h6⟩
  · simp only [h]
  · have hnz : jsTruthy (.num n) = true := by
      simp only [jsTruthy, bne_iff_ne, ne_eq, decide_eq_true_eq]
      omega
    simp only [ht, hc, hnz, if_true, statusCodeOfCode, Bool.and_eq_true,
      decide_eq_true_eq]
    omega

theorem shouldRetry_at_max {a : AppError} {i m : Nat} (h : i ≥ m) :
    shouldRetryError a i m = false := by
  rw [shouldRetryError, if_pos h]

theorem retryLoop_err_step (results : Nat → BQResult) (fuel rc : Nat)
    (le : Option JSValue) {e : JSValue} {ne : AppError}
    (hrc : rc ≤ learningMapApi.MAX_RETRIES) (hres : results rc = .err e)
    (hne : normalizeError e = .ok ne) :
    learningMapApi.retryLoop results (fuel + 1) rc le =
      if !shouldRetryError ne rc learningMapApi.MAX_RETRIES then
        .ok (.failure (setField e "data" (.str ne.message)))
      else if rc ≥ learningMapApi.MAX_RETRIES then
        .ok (.failure (setField e "data" (.str ne.message)))
      else
        learningMapApi.retryLoop results fuel (rc + 1)
          (some (setField e "data" (.str ne.message))) := by
  rw [learningMapApi.retryLoop]
  rw [if_pos hrc, hres]
  simp only [hne]

/-! ## Claim theorems -/

/-- C1: for every `AppError` and attempt count, `shouldRetryError` retries a
Network-kind error while `attempt < maxRetries`; returns false whenever
`attempt >= maxRetries` regardless of kind; returns false for an API-kind
error with numeric status in [400,500) at every attempt; returns true for an
API-kind error with numeric status in [500,600) while `attempt < maxRetries`;
and never retries Validation- or Unknown-kind errors. -/
theorem shouldRetryError_spec (e : AppError) (attempt maxRetries : Nat) :
    (e.type = .NETWORK → attempt < maxRetries →
      shouldRetryError e attempt maxRetries = true) ∧
    (attempt ≥ maxRetries → shouldRetryError e attempt maxRetries = false) ∧
    (∀ n : Int, e.type = .API → e.code = some (.num n) → 400 ≤ n → n < 500 →
      shouldRetryError e attempt maxRetries = false) ∧
    (∀ n : Int, e.type = .API → e.code = some (.num n) → 500 ≤ n → n < 600 →
      attempt < maxRetries → shouldRetryError e attempt maxRetries = true) ∧
    ((e.type = .VALIDATION ∨ e.type = .UNKNOWN) →
      shouldRetryError e attempt maxRetries = false) := by
  refine ⟨?_, ?_, ?_, ?_, ?_⟩
  · intro h hi
    exact shouldRetry_of_retryableKind (Or.inl h) hi
  · intro h
    exact shouldRetry_at_max h
  · intro n ht hc h4 h5
    by_cases hi : attempt ≥ maxRetries
    · exact shouldRetry_at_max hi
    · rw [shouldRetryError, if_neg hi]
      have hnz : jsTruthy (.num n) = true := by
        simp only [jsTruthy, bne_iff_ne, ne_eq, decide_eq_true_eq]
        omega
      simp only [ht, hc, hnz, if_true, statusCodeOfCode]
      have h6 : ¬ (500 ≤ n) := by omega
      simp [h6]
  · intro n ht hc h5 h6 hi
    exact shouldRetry_of_retryableKind (Or.inr ⟨n, ht, hc, h5, h6⟩) hi
  · intro h
    by_cases hi : attempt ≥ maxRetries
    · exact shouldRetry_at_max hi
    · rw [shouldRetryError, if_neg hi]
      rcases h with h | h <;> simp only [h]

theorem shouldRetryError_spec_witness :
    shouldRetryError ⟨.NETWORK, "m", none, none⟩ 0 3 = true ∧
    shouldRetryError ⟨.NETWORK, "m", none, none⟩ 3 3 = false ∧
    shouldRetryError ⟨.API, "m", some (.num 404), none⟩ 1 3 = false ∧
    shouldRetryError ⟨.API, "m", some (.num 503), none⟩ 1 3 = true ∧
    shouldRetryError ⟨.UNKNOWN, "m", none, none⟩ 0 3 = false :=
  ⟨(shouldRetryError_spec _ 0 3).1 rfl (by decide),
   (shouldRetryError_spec _ 3 3).2.1 (by decide),
   (shouldRetryError_spec _ 1 3).2.2.1 404 rfl rfl (by decide) (by decide),
   (shouldRetryError_spec _ 1 3).2.2.2.1 503 rfl rfl (by decide) (by decide)
     (by decide),
   (shouldRetryError_spec _ 0 3).2.2.2.2 (Or.inr rfl)⟩

/-- C2: `normalizeError` is not total — on the object `{ message: 42 }` the
chain `err.message?.includes("Network")` inside `isNetworkError` calls
`includes` on a number and throws a `TypeError`, so `normalizeError` throws
instead of returning an `AppError`. -/
theorem normalizeError_throws_on_numeric_message :
    normalizeError (.obj [("message", .num 42)]) = .error () := rfl

/-- C5: `cleanErrorMessage` is not idempotent — on
`"Error: TypeError: boom"` the first pass only strips `"Error:"` (the
`TypeError:` pattern is tested before the `Error:` pattern and does not
match), and a second pass strips the now-leading `"TypeError:"`. -/
theorem cleanErrorMessage_not_idempotent :
    cleanErrorMessage "Error: TypeError: boom" = "TypeError: boom" ∧
    cleanErrorMessage (cleanErrorMessage "Error: TypeError: boom") = "boom" ∧
    ("TypeError: boom" : String) ≠ "boom" := ⟨rfl, rfl, by decide⟩

/-- C5 amended: `cleanErrorMessage` is idempotent on every string whose
cleaned form does not itself begin (case-insensitively) with one of the
seven exception-type prefixes. -/
theorem cleanErrorMessage_idem_of_clean (s : String)
    (h : hasErrorTypePre (cleanErrorMessage s) = false) :
    cleanErrorMessage (cleanErrorMessage s) = cleanErrorMessage s := by
  have hall : ∀ p ∈ errorPrefixes,
      startsWithCI p.data (cleanErrorMessage s).data = false := by
    intro p hp
    rw [hasErrorTypePre] at h
    by_contra h2
    rw [Bool.not_eq_false] at h2
    have : errorPrefixes.any (fun q => startsWithCI q.data (cleanErrorMessage s).data)
        = true := List.any_eq_true.mpr ⟨p, hp, h2⟩
    rw [h] at this
    cases this
  have h1 : cleanErrorMessage s =
      ⟨trimChars (errorPrefixes.foldl (fun acc p => stripOnePre acc p.data) s.data)⟩ :=
    rfl
  have hdata : (cleanErrorMessage s).data =
      trimChars (errorPrefixes.foldl (fun acc p => stripOnePre acc p.data) s.data) := by
    rw [h1]
  conv_lhs => rw [cleanErrorMessage]
  rw [foldl_stripOnePre_id hall, hdata, trimChars_idem, ← h1]

theorem cleanErrorMessage_idem_of_clean_witness :
    hasErrorTypePre (cleanErrorMessage "TypeError: boom") = false ∧
    cleanErrorMessage (cleanErrorMessage "TypeError: boom") =
      cleanErrorMessage "TypeError: boom" :=
  ⟨by decide, cleanErrorMessage_idem_of_clean "TypeError: boom" (by decide)⟩

/-- C6: the backoff schedule is a pure function of the attempt number, with
the cold-start-aware profile returning a fixed 5000ms at every attempt under
a cap of 10 retries and the generic profile returning `1000 * 2^attempt`
milliseconds under a cap of 3 retries. -/
theorem calculateRetryDelay_spec (attempt : Nat) :
    learningMapApiColdStart.calculateRetryDelay attempt = 5000 ∧
    learningMapApi.calculateRetryDelay attempt = 1000 * 2 ^ attempt ∧
    learningMapApiColdStart.MAX_RETRIES = 10 ∧
    learningMapApi.MAX_RETRIES = 3 := by
  refine ⟨?_, rfl, rfl, rfl⟩
  rw [learningMapApiColdStart.calculateRetryDelay]
  split <;> rfl

theorem normalizeError_of_isNetwork {v : JSValue} (h : isNetworkError v = .ok true) :
    normalizeError v = .ok ⟨.NETWORK, networkErrorMessage, none, some v⟩ := by
  simp [normalizeError, h]

/-- C7 counterexample: the string `"NETWORK DOWN"` contains `"network"`
case-insensitively, yet `normalizeError` classifies it as Unknown, not
Network — the code only matches the exact casings `"Network"`/`"network"`
(plus the lowercased phrases `"network error"`, `"fetch failed"`,
`"failed to fetch"`). -/
theorem normalizeError_not_ci_network :
    normalizeError (.str "NETWORK DOWN") =
      .ok ⟨.UNKNOWN, "NETWORK DOWN", none, some (.str "NETWORK DOWN")⟩ ∧
    ErrorType.UNKNOWN ≠ ErrorType.NETWORK := ⟨rfl, by decide⟩

/-- C7 amended: `normalizeError` classifies a raw value as Network-kind when
its `message` (a field of a plain object, or the message of an `Error`
instance) contains `"Network"` or `"network"` in exactly that casing, or
`"fetch failed"` / `"Failed to fetch"`; when the cleaned extracted message,
lowercased, contains `"failed to fetch"`, `"network error"` or
`"fetch failed"` (for every raw on which `isNetworkError` returns at all);
and when the `code` field is the marker `"NETWORK_ERROR"` or
`"ECONNABORTED"`, whatever non-throwing shape the `message` field has.
All of this takes precedence over the API status check (the status fields
are unconstrained below). -/
theorem normalizeError_network_spec :
    (∀ (fs : List (String × JSValue)) (s : String),
      jLookupV fs "message" = some (.str s) →
      (strContains s "Network" || strContains s "network" ||
        strContains s "fetch failed" || strContains s "Failed to fetch") = true →
      normalizeError (.obj fs) =
        .ok ⟨.NETWORK, networkErrorMessage, none, some (.obj fs)⟩) ∧
    (∀ m : String,
      (strContains m "Network" || strContains m "network" ||
        strContains m "fetch failed" || strContains m "Failed to fetch") = true →
      normalizeError (.errObj m) =
        .ok ⟨.NETWORK, networkErrorMessage, none, some (.errObj m)⟩) ∧
    (∀ (v : JSValue) (b : Bool), isNetworkError v = .ok b →
      (strContains (lowerStr (extractErrorMessage v)) "failed to fetch" ||
        strContains (lowerStr (extractErrorMessage v)) "network error" ||
        strContains (lowerStr (extractErrorMessage v)) "fetch failed") = true →
      normalizeError v = .ok ⟨.NETWORK, networkErrorMessage, none, some v⟩) ∧
    (∀ (fs : List (String × JSValue)) (c : String),
      jLookupV fs "code" = some (.str c) →
      (c == "NETWORK_ERROR" || c == "ECONNABORTED") = true →
      messageFieldNonThrowing (.obj fs) = true →
      normalizeError (.obj fs) =
        .ok ⟨.NETWORK, networkErrorMessage, none, some (.obj fs)⟩) := by
  refine ⟨?_, ?_, ?_, ?_⟩
  · intro fs s hmsg hsub
    apply normalizeError_of_isNetwork
    rw [isNetworkError]
    simp only [isObjectLike, if_true, getField, hmsg]
    congr 1
    simp only [Bool.or_eq_true] at hsub ⊢
    tauto
  · intro m hsub
    apply normalizeError_of_isNetwork
    have h1 : getField (.errObj m) "message" = .str m := rfl
    have h2 : getField (.errObj m) "code" = .undefined := rfl
    rw [isNetworkError]
    simp only [isObjectLike, if_true, h1, h2]
    congr 1
    simp only [Bool.or_eq_true] at hsub ⊢
    tauto
  · intro v b hnet hsub
    rw [normalizeError, hnet]
    simp only [Bool.or_eq_true] at hsub
    have hne : (b || strContains (lowerStr (extractErrorMessage v)) "failed to fetch" ||
        strContains (lowerStr (extractErrorMessage v)) "network error" ||
        strContains (lowerStr (extractErrorMessage v)) "fetch failed") = true := by
      simp only [Bool.or_eq_true]
      tauto
    simp only [hne, if_true]
  · intro fs c hcode hmark hsafe
    apply normalizeError_of_isNetwork
    rw [isNetworkError]
    rw [messageFieldNonThrowing] at hsafe
    simp only [isObjectLike, if_true, getField, hcode, hmark]
    match hmsg : jLookupV fs "message" with
    | none => simp [getField, hmsg]
    | some .undefined => simp [getField, hmsg]
    | some .jsNull => simp [getField, hmsg]
    | some (.str s) => simp [getField, hmsg]
    | some (.arr xs) => simp [getField, hmsg]
    | some (.jsBool b2) | some (.num n) | some (.obj fs2) | some (.errObj m2) =>
      simp [getField, hmsg] at hsafe

theorem normalizeError_network_spec_witness :
    normalizeError (.obj [("message", .str "network down"), ("status", .num 404)]) =
      .ok ⟨.NETWORK, networkErrorMessage, none,
        some (.obj [("message", .str "network down"), ("status", .num 404)])⟩ ∧
    normalizeError (.errObj "Failed to fetch") =
      .ok ⟨.NETWORK, networkErrorMessage, none, some (.errObj "Failed to fetch")⟩ ∧
    normalizeError (.obj [("data", .obj [("message", .str "Network Error: refused")])]) =
      .ok ⟨.NETWORK, networkErrorMessage, none,
        some (.obj [("data", .obj [("message", .str "Network Error: refused")])])⟩ ∧
    normalizeError (.obj [("message", .str "boom"), ("code", .str "ECONNABORTED")]) =
      .ok ⟨.NETWORK, networkErrorMessage, none,
        some (.obj [("message", .str "boom"), ("code", .str "ECONNABORTED")])⟩ :=
  ⟨normalizeError_network_spec.1 [("message", .str "network down"),
      ("status", .num 404)] "network down" rfl (by decide),
   normalizeError_network_spec.2.1 "Failed to fetch" (by decide),
   normalizeError_network_spec.2.2.1
      (.obj [("data", .obj [("message", .str "Network Error: refused")])])
      false rfl (by decide),
   normalizeError_network_spec.2.2.2
      [("message", .str "boom"), ("code", .str "ECONNABORTED")] "ECONNABORTED"
      rfl (by decide) (by decide)⟩

/-- C9 counterexample: a domain `AppError` (here a 400 validation-style
error) whose message happens to contain the keyword `"network"` is NOT
re-thrown unchanged — the catch block replaces it with a fresh
`NETWORK_ERROR` AppError (status 503). -/
theorem classifyGeminiCatch_apperr_not_passthrough :
    classifyGeminiCatch (.appErr ⟨"Invalid request from network layer", 400⟩) =
      ⟨"Network error. Please check your connection", 503⟩ ∧
    (⟨"Network error. Please check your connection", 503⟩ : SrvAppError) ≠
      ⟨"Invalid request from network layer", 400⟩ := ⟨rfl, by decide⟩

/-- C9 amended: the catch block of `generateLearningMap` classifies a thrown
`Error` by the first matching keyword of its message — `"API key"` yields
the EXTERNAL_SERVICE_ERROR entry (status 502), then `"quota"` yields
TOO_MANY_REQUESTS (429), then `"network"`/`"fetch"` yields NETWORK_ERROR
(503), then `"timeout"` yields EXTERNAL_SERVICE_TIMEOUT (504); an
unclassified non-AppError value yields EXTERNAL_SERVICE_ERROR (502); and a
domain `AppError` is re-thrown unchanged only when its message matches none
of the keywords. -/
theorem classifyGeminiCatch_spec :
    (∀ (err : Thrown) (m : String), thrownMessage err = some m →
      ((strContains m "API key" = true →
        classifyGeminiCatch err =
          ⟨"Google Gemini API key not configured or invalid", 502⟩) ∧
       (strContains m "API key" = false → strContains m "quota" = true →
        classifyGeminiCatch err =
          ⟨"API quota exceeded. Please try again later", 429⟩) ∧
       (strContains m "API key" = false → strContains m "quota" = false →
        (strContains m "network" || strContains m "fetch") = true →
        classifyGeminiCatch err =
          ⟨"Network error. Please check your connection", 503⟩) ∧
       (strContains m "API key" = false → strContains m "quota" = false →
        (strContains m "network" || strContains m "fetch") = false →
        strContains m "timeout" = true →
        classifyGeminiCatch err =
          ⟨"Request timed out. Please try again", 504⟩) ∧
       (strContains m "API key" = false → strContains m "quota" = false →
        (strContains m "network" || strContains m "fetch") = false →
        strContains m "timeout" = false →
        ∀ e : SrvAppError, err = .appErr e → classifyGeminiCatch err = e))) ∧
    (∀ v : JSValue, (classifyGeminiCatch (.other v)).statusCode =
      errorCodeToStatus .EXTERNAL_SERVICE_ERROR) ∧
    (∀ m : String, strContains m "API key" = false → strContains m "quota" = false →
      (strContains m "network" || strContains m "fetch") = false →
      strContains m "timeout" = false →
      (classifyGeminiCatch (.plainErr m)).statusCode =
        errorCodeToStatus .EXTERNAL_SERVICE_ERROR) := by
  refine ⟨?_, ?_, ?_⟩
  · intro err m hm
    refine ⟨?_, ?_, ?_, ?_, ?_⟩
    · intro h1
      simp [classifyGeminiCatch, hm, h1, createError, errorCodeToStatus]
    · intro h1 h2
      simp [classifyGeminiCatch, hm, h1, h2, createError, errorCodeToStatus]
    · intro h1 h2 h3
      simp [classifyGeminiCatch, hm, h1, h2, h3, createError, errorCodeToStatus]
    · intro h1 h2 h3 h4
      simp [classifyGeminiCatch, hm, h1, h2, h3, h4, createError, errorCodeToStatus]
    · intro h1 h2 h3 h4 e he
      subst he
      simp [classifyGeminiCatch, hm, h1, h2, h3, h4]
  · intro v
    simp [classifyGeminiCatch, thrownMessage, createError, errorCodeToStatus]
  · intro m h1 h2 h3 h4
    simp [classifyGeminiCatch, thrownMessage, h1, h2, h3, h4, createError,
      errorCodeToStatus]

theorem classifyGeminiCatch_spec_witness :
    classifyGeminiCatch (.plainErr "quota exceeded for project") =
      ⟨"API quota exceeded. Please try again later", 429⟩ ∧
    classifyGeminiCatch (.appErr ⟨"persistence exploded", 500⟩) =
      ⟨"persistence exploded", 500⟩ :=
  ⟨((classifyGeminiCatch_spec.1 (.plainErr "quota exceeded for project")
      "quota exceeded for project" rfl).2.1 (by decide) (by decide)),
   ((classifyGeminiCatch_spec.1 (.appErr ⟨"persistence exploded", 500⟩)
      "persistence exploded" rfl).2.2.2.2 (by decide) (by decide) (by decide)
      (by decide) ⟨"persistence exploded", 500⟩ rfl)⟩

/-- C3 counterexample: with every attempt failing with a 503 error,
`baseQueryWithRetry` does terminate in a failed state, but the error it
returns carries the plain normalized message in its `data` field, with no
attempt-count annotation (the `(Failed after ... retries)` text exists only
in an unreachable logging branch). -/
theorem baseQueryWithRetry_no_annotation :
    learningMapApi.baseQueryWithRetry (fun _ => .err (.obj [("status", .num 503)])) =
      .ok (.failure (.obj [("status", .num 503),
        ("data", .str "Server error. Please try again later.")])) ∧
    strContains "Server error. Please try again later." "Failed after" = false ∧
    strContains "Server error. Please try again later." "3" = false :=
  ⟨rfl, rfl, rfl⟩

/-- C3 amended: for every request function failing with a retryable-kind
error (Network, or API with a 5xx numeric status) on every attempt up to the
retry budget, `baseQueryWithRetry` terminates in a failed state and returns
the final attempt's error with its `data` field replaced by the final
normalized message — not annotated with the number of attempts. -/
theorem baseQueryWithRetry_exhaustion (results : Nat → BQResult)
    (e : Nat → JSValue) (ne : Nat → AppError)
    (h : ∀ i, i ≤ learningMapApi.MAX_RETRIES → results i = .err (e i) ∧
      normalizeError (e i) = .ok (ne i) ∧ RetryableKind (ne i)) :
    learningMapApi.baseQueryWithRetry results =
      .ok (.failure (setField (e 3) "data" (.str (ne 3).message))) := by
  obtain ⟨hr0, hn0, hk0⟩ := h 0 (by decide)
  obtain ⟨hr1, hn1, hk1⟩ := h 1 (by decide)
  obtain ⟨hr2, hn2, hk2⟩ := h 2 (by decide)
  obtain ⟨hr3, hn3, hk3⟩ := h 3 (by decide)
  show learningMapApi.retryLoop results (4 + 1) 0 none = _
  rw [retryLoop_err_step results 4 0 none (by decide) hr0 hn0,
    shouldRetry_of_retryableKind hk0 (by decide)]
  simp only [Bool.not_true, Bool.false_eq_true, if_false]
  rw [if_neg (by decide)]
  show learningMapApi.retryLoop results (3 + 1) 1 _ = _
  rw [retryLoop_err_step results 3 1 _ (by decide) hr1 hn1,
    shouldRetry_of_retryableKind hk1 (by decide)]
  simp only [Bool.not_true, Bool.false_eq_true, if_false]
  rw [if_neg (by decide)]
  show learningMapApi.retryLoop results (2 + 1) 2 _ = _
  rw [retryLoop_err_step results 2 2 _ (by decide) hr2 hn2,
    shouldRetry_of_retryableKind hk2 (by decide)]
  simp only [Bool.not_true, Bool.false_eq_true, if_false]
  rw [if_neg (by decide)]
  show learningMapApi.retryLoop results (1 + 1) 3 _ = _
  rw [retryLoop_err_step results 1 3 _ (by decide) hr3 hn3,
    shouldRetry_at_max (by decide)]
  simp only [Bool.not_false, if_true]

theorem baseQueryWithRetry_exhaustion_witness :
    learningMapApi.baseQueryWithRetry (fun _ => .err (.obj [("status", .num 500)])) =
      .ok (.failure (setField (.obj [("status", .num 500)]) "data"
        (.str "Server error. Please try again later."))) :=
  baseQueryWithRetry_exhaustion (fun _ => .err (.obj [("status", .num 500)]))
    (fun _ => .obj [("status", .num 500)])
    (fun _ => ⟨.API, "Server error. Please try again later.", some (.num 500),
      some (.obj [("status", .num 500)])⟩)
    (fun i _ => ⟨rfl, rfl, Or.inr ⟨500, rfl, rfl, by decide, by decide⟩⟩)

/-- C4 counterexample: a fenced code block with a language tag other than
`json` is not stripped — only the tag-less `/^` ``` `\s*/` replace runs, the
tag text survives, and `JSON.parse` fails — even though the same document
parses fine unwrapped. -/
theorem parseGeminiResponse_langtag_cex :
    parseGeminiResponse "```js\n\x7b\"branches\":[]\x7d\n```" =
      .error "Failed to parse Gemini response: Unexpected token" ∧
    parseGeminiResponse "\x7b\"branches\":[]\x7d" = .ok (.obj [("branches", .arr [])]) :=
  ⟨rfl, rfl⟩

/-- C4 amended: for every raw text whose trimmed, fence-stripped form (the
code strips a `json`-tagged or tag-less fence, not other language tags)
parses as JSON to a well-formed LearningMap document (truthy branch titles,
array subtopics, truthy subtopic titles/descriptions), `parseGeminiResponse`
succeeds and returns branches matching the input pairwise — titles and
descriptions preserved, `resources` kept when an array and defaulted to `[]`
otherwise; in particular the raw text consisting of `\x7b"branches":[]\x7d`
inside a `json`-tagged fence parses to an empty branches array. -/
theorem parseGeminiResponse_roundtrip :
    (∀ (raw : String) (j : Json),
      jsonParse (stripCodeFence (trimStr raw)) = some j →
      wellFormedDoc j = true →
      ∃ out bs obs, jGet j "branches" = some (.arr bs) ∧
        parseGeminiResponse raw = .ok out ∧
        jGet out "branches" = some (.arr obs) ∧
        List.Forall₂ SpecBranchMatch bs obs) ∧
    parseGeminiResponse "```json\n\x7b\"branches\":[]\x7d\n```" =
      .ok (.obj [("branches", .arr [])]) :=
  ⟨fun _ _ hp hwf => parseGemini_ok_of_wf hp hwf, rfl⟩

theorem parseGeminiResponse_roundtrip_witness :
    jsonParse (stripCodeFence (trimStr
        "```json\n\x7b\"branches\":[\x7b\"title\":\"B\",\"description\":\"d\",\"subtopics\":[]\x7d]\x7d\n```")) =
      some (.obj [("branches", .arr [.obj [("title", .str "B"),
        ("description", .str "d"), ("subtopics", .arr [])]])]) ∧
    wellFormedDoc (.obj [("branches", .arr [.obj [("title", .str "B"),
        ("description", .str "d"), ("subtopics", .arr [])]])]) = true ∧
    ∃ out bs obs,
      jGet (.obj [("branches", .arr [.obj [("title", .str "B"),
        ("description", .str "d"), ("subtopics", .arr [])]])]) "branches" =
          some (.arr bs) ∧
      parseGeminiResponse
        "```json\n\x7b\"branches\":[\x7b\"title\":\"B\",\"description\":\"d\",\"subtopics\":[]\x7d]\x7d\n```" =
          .ok out ∧
      jGet out "branches" = some (.arr obs) ∧
      List.Forall₂ SpecBranchMatch bs obs :=
  ⟨rfl, rfl, parseGeminiResponse_roundtrip.1 _ _ rfl rfl⟩

/-- C8: `parseGeminiResponse` fails whenever some branch of the parsed
document fails the branch-level checks (missing/falsy `title`, or
`subtopics` missing or not an array) or contains a subtopic failing the
subtopic-level checks (missing/falsy `title` or `description`); the concrete
document `\x7b"branches":[\x7b"subtopics":[]\x7d]\x7d` fails with the
branch-structure error; and a subtopic with truthy title and description is
always accepted, whatever its `resources` field holds. -/
theorem parseGeminiResponse_structural_errors :
    (∀ (raw : String) (j : Json) (bs : List Json),
      jsonParse (stripCodeFence (trimStr raw)) = some j →
      jGet j "branches" = some (.arr bs) →
      (∃ b ∈ bs, badBranchShape b = true ∨ branchHasBadSub b = true) →
      ∃ m, parseGeminiResponse raw = .error m) ∧
    parseGeminiResponse "\x7b\"branches\":[\x7b\"subtopics\":[]\x7d]\x7d" =
      .error "Failed to parse Gemini response: Invalid branch structure: missing required fields" ∧
    (∀ st : Json, wellFormedSub st = true → ∃ out, validateSubtopic st = .ok out) := by
  refine ⟨?_, rfl, ?_⟩
  · intro raw j bs hp hbs hbad
    exact parseGemini_err_of_badBranch hp hbs hbad
  · intro st h
    obtain ⟨out, hout, _⟩ := validateSubtopic_ok_of_wf h
    exact ⟨out, hout⟩

theorem parseGeminiResponse_structural_errors_witness :
    jsonParse (stripCodeFence (trimStr "\x7b\"branches\":[\x7b\"subtopics\":[]\x7d]\x7d")) =
      some (.obj [("branches", .arr [.obj [("subtopics", .arr [])]])]) ∧
    jGet (.obj [("branches", .arr [.obj [("subtopics", .arr [])]])]) "branches" =
      some (.arr [.obj [("subtopics", .arr [])]]) ∧
    (∃ m, parseGeminiResponse "\x7b\"branches\":[\x7b\"subtopics\":[]\x7d]\x7d" = .error m) ∧
    wellFormedSub (.obj [("title", .str "S"), ("description", .str "d"),
      ("resources", .str "oops")]) = true ∧
    (∃ out, validateSubtopic (.obj [("title", .str "S"), ("description", .str "d"),
      ("resources", .str "oops")]) = .ok out) :=
  ⟨rfl, rfl,
   parseGeminiResponse_structural_errors.1 _ _ [.obj [("subtopics", .arr [])]]
     rfl rfl ⟨.obj [("subtopics", .arr [])], by simp, Or.inl (by decide)⟩,
   by decide,
   parseGeminiResponse_structural_errors.2.2 _ (by decide)⟩

/-- C10: every accepted document comes back with each branch's direct
subtopics carrying a truthy `title`, a truthy `description` and an
array-valued `resources` field, while anything under a subtopic's own
`subtopics` key is returned exactly as it was — no validation and no
resources default is applied one level down.  The concrete nested document
keeps its bare `\x7b"title":"N"\x7d` nested subtopic unchanged while the
outer subtopic gains `resources: []`. -/
theorem parseGeminiResponse_toplevel_only :
    (∀ (raw : String) (out : Json), parseGeminiResponse raw = .ok out →
      ∃ obs, jGet out "branches" = some (.arr obs) ∧
        ∀ b ∈ obs, ∃ sts, jGet b "subtopics" = some (.arr sts) ∧
          ∀ st ∈ sts, truthyOpt (jGet st "title") = true ∧
            truthyOpt (jGet st "description") = true ∧
            ∃ r, jGet st "resources" = some (.arr r)) ∧
    (∀ st out : Json, validateSubtopic st = .ok out →
      jGet out "subtopics" = jGet st "subtopics") ∧
    parseGeminiResponse
      "\x7b\"branches\":[\x7b\"title\":\"B\",\"subtopics\":[\x7b\"title\":\"S\",\"description\":\"d\",\"subtopics\":[\x7b\"title\":\"N\"\x7d]\x7d]\x7d]\x7d" =
      .ok (.obj [("branches", .arr [.obj [("title", .str "B"),
        ("subtopics", .arr [.obj [("title", .str "S"), ("description", .str "d"),
          ("subtopics", .arr [.obj [("title", .str "N")]]),
          ("resources", .arr [])]])]])]) :=
  ⟨fun _ _ h => parseGemini_ok_inv h,
   fun _ _ h => validateSubtopic_nested_unchanged h, rfl⟩

theorem parseGeminiResponse_toplevel_only_witness :
    parseGeminiResponse
      "\x7b\"branches\":[\x7b\"title\":\"B\",\"subtopics\":[\x7b\"title\":\"S\",\"description\":\"d\",\"subtopics\":[\x7b\"title\":\"N\"\x7d]\x7d]\x7d]\x7d" =
      .ok (.obj [("branches", .arr [.obj [("title", .str "B"),
        ("subtopics", .arr [.obj [("title", .str "S"), ("description", .str "d"),
          ("subtopics", .arr [.obj [("title", .str "N")]]),
          ("resources", .arr [])]])]])]) ∧
    (∃ obs, jGet (.obj [("branches", .arr [.obj [("title", .str "B"),
        ("subtopics", .arr [.obj [("title", .str "S"), ("description", .str "d"),
          ("subtopics", .arr [.obj [("title", .str "N")]]),
          ("resources", .arr [])]])]])]) "branches" = some (.arr obs) ∧
      ∀ b ∈ obs, ∃ sts, jGet b "subtopics" = some (.arr sts) ∧
        ∀ st ∈ sts, truthyOpt (jGet st "title") = true ∧
          truthyOpt (jGet st "description") = true ∧
          ∃ r, jGet st "resources" = some (.arr r)) ∧
    validateSubtopic (.obj [("title", .str "S"), ("description", .str "d"),
        ("subtopics", .arr [.obj [("title", .str "N")]])]) =
      .ok (.obj [("title", .str "S"), ("description", .str "d"),
        ("subtopics", .arr [.obj [("title", .str "N")]]), ("resources", .arr [])]) ∧
    jGet (.obj [("title", .str "S"), ("description", .str "d"),
        ("subtopics", .arr [.obj [("title", .str "N")]]), ("resources", .arr [])])
        "subtopics" =
      jGet (.obj [("title", .str "S"), ("description", .str "d"),
        ("subtopics", .arr [.obj [("title", .str "N")]])]) "subtopics" :=
  ⟨rfl,
   parseGeminiResponse_toplevel_only.1
     "\x7b\"branches\":[\x7b\"title\":\"B\",\"subtopics\":[\x7b\"title\":\"S\",\"description\":\"d\",\"subtopics\":[\x7b\"title\":\"N\"\x7d]\x7d]\x7d]\x7d"
     (.obj [("branches", .arr [.obj [("title", .str "B"),
       ("subtopics", .arr [.obj [("title", .str "S"), ("description", .str "d"),
         ("subtopics", .arr [.obj [("title", .str "N")]]),
         ("resources", .arr [])]])]])]) rfl,
   rfl,
   parseGeminiResponse_toplevel_only.2.1
     (.obj [("title", .str "S"), ("description", .str "d"),
       ("subtopics", .arr [.obj [("title", .str "N")]])])
     (.obj [("title", .str "S"), ("description", .str "d"),
       ("subtopics", .arr [.obj [("title", .str "N")]]), ("resources", .arr [])])
     rfl⟩

end Inagiffy
